import Mathlib

/-!
Shallow embedding of `src/contracts/verdict_arena.py` (GenLayer contract
`VerdictArena`).

Modelling conventions:
* `Address` is modelled as `Nat` (an opaque, decidable identity).
* `TreeMap[Address, T]` is modelled as a function `Address → Option T`.
* `u256` scores are modelled as `Nat` (every value written is in `[0,100]`,
  far below `2^256`, so no wraparound can occur).
* Each `@gl.public.write` method is a function
  `State → Except Err (State × String)`: the GenLayer runtime applies a
  transaction atomically, so a raised `assert`/exception commits nothing;
  `applyTx` below realises that commit semantics.
* The non-deterministic oracle calls (`gl.get_webpage`, `gl.exec_prompt`
  under `gl.eq_principle_strict_eq` / `gl.eq_principle_prompt_non_comparative`)
  are inputs to the transition functions: the prompt text built from the
  topic/argument only feeds the oracle, so it is absorbed into the oracle
  parameter.  What the contract code itself does with the returned string
  (`json.loads`, `scored.get("total", 0)`, `int`, clamping) is modelled
  explicitly.
-/

abbrev Address := Nat

/-- Error taxonomy of the spec (§7); each `assert` in the source carries the
message the spec names map onto. -/
inductive Err
  | Unauthorized
  | RoundAlreadyOpen
  | PeriodAlreadyPlayed
  | RoundNotOpen
  | AlreadyJudged
  | InvalidSide
  | TextTooShort
  | TextTooLong
  | NoSubmissions
  | ConsensusDivergence
  | ConsensusRejected
  | OracleUnavailable
  deriving DecidableEq, Repr

/-- Persistent on-chain state of `VerdictArena` (class attributes, lines 33-45). -/
structure State where
  current_week : String
  current_topic : String
  current_side_a : String
  current_side_b : String
  submissions : Address → Option String
  scores : Address → Option Nat
  all_time_xp : Address → Option Nat
  player_list : List Address
  round_open : Bool
  judging_done : Bool
  host : Address

/-- `__init__` (lines 47-54): empty collections, round closed, host = deployer. -/
def initState (deployer : Address) : State where
  current_week := ""
  current_topic := ""
  current_side_a := ""
  current_side_b := ""
  submissions := fun _ => none
  scores := fun _ => none
  all_time_xp := fun _ => none
  player_list := []
  round_open := false
  judging_done := false
  host := deployer

/-- Pointwise update of a `TreeMap`-modelling function (`m[k] = v`). -/
def setMap {T : Type} (m : Address → Option T) (k : Address) (v : T) :
    Address → Option T :=
  fun a => if a = k then some v else m a

/-- Outcome of the adapter call wrapping the per-player scoring prompt
(`gl.eq_principle_prompt_non_comparative`, lines 227-236), together with how
the accepted string behaves under the contract's own parsing (lines 238-239). -/
inductive FieldVal
  /-- the JSON object has no `total` key, so `scored.get("total", 0)` yields 0 -/
  | absent
  /-- a `total` value on which Python's `int(...)` raises -/
  | nonNumeric
  /-- a `total` value that `int(...)` converts to `n` -/
  | numeric (n : Int)
  deriving DecidableEq, Repr

inductive OracleOutcome
  /-- the wrapped operation itself errored (network/model failure) -/
  | unavailable
  /-- the validators rejected the proposal (tolerant consensus failed) -/
  | rejected
  /-- consensus accepted a string; `malformed = true` iff `json.loads` raises
  on it, otherwise `total` describes its `total` field -/
  | malformed
  | accepted (total : FieldVal)
  deriving DecidableEq, Repr

/-- Lines 238-239: `scored = json.loads(scored_str)` followed by
`xp = u256(min(max(int(scored.get("total", 0)), 0), 100))`, with adapter
failures propagating.  A raised `json.loads`/`int` error surfaces as the
oracle-side failure (`OracleUnavailable` in the spec's taxonomy). -/
def scoreOf : OracleOutcome → Except Err Nat
  | .unavailable => .error .OracleUnavailable
  | .rejected => .error .ConsensusRejected
  | .malformed => .error .OracleUnavailable
  | .accepted .absent => .ok 0
  | .accepted .nonNumeric => .error .OracleUnavailable
  | .accepted (.numeric n) => .ok (min (max n 0) 100).toNat

/-- Loop body of `judge_all` (lines 181-245) for one `player`: skip players
with no/empty stored submission, otherwise score via the oracle, write the
period score and add it to the lifetime score. -/
def judgeStep (oracle : Address → OracleOutcome) (st : State) (player : Address) :
    Except Err State :=
  match st.submissions player with
  | none => .ok st
  | some raw =>
    if raw = "" then .ok st
    else
      match scoreOf (oracle player) with
      | .error e => .error e
      | .ok xp =>
        .ok { st with
          scores := setMap st.scores player xp
          all_time_xp :=
            setMap st.all_time_xp player ((st.all_time_xp player).getD 0 + xp) }

/-- The `for player in self.player_list` loop of `judge_all` (lines 181-245):
a raised error anywhere in the loop aborts the whole call. -/
def judgeLoop (oracle : Address → OracleOutcome) :
    List Address → State → Except Err State
  | [], st => .ok st
  | p :: rest, st =>
    match judgeStep oracle st p with
    | .error e => .error e
    | .ok st1 => judgeLoop oracle rest st1

/-- `judge_all` (lines 156-250). -/
def judge_all (caller : Address) (oracle : Address → OracleOutcome) (s : State) :
    Except Err (State × String) :=
  if caller ≠ s.host then .error .Unauthorized
  else if ¬ s.round_open then .error .RoundNotOpen
  else if s.judging_done then .error .AlreadyJudged
  else if s.player_list.isEmpty then .error .NoSubmissions
  else
    match judgeLoop oracle s.player_list s with
    | .error e => .error e
    | .ok s1 =>
      .ok ({ s1 with round_open := false, judging_done := true },
        "Judging complete! Call get_leaderboard() to see results.")

/-- Python's `side.upper()` as evaluated in `submit_argument` (line 151):
it runs only after the `side in ["a", "b"]` assert, so it is exactly this
two-case map (written this way to keep the definition kernel-computable;
`String.toUpper` itself does not reduce in the kernel). -/
def sideUpper (side : String) : String := if side = "a" then "A" else "B"

/-- `submit_argument` (lines 131-153).  The source accepts exactly the two
side tags `"a"` and `"b"` (the spec's abstract sides A and B). -/
def submit_argument (caller : Address) (side : String) (argument : String)
    (s : State) : Except Err (State × String) :=
  if ¬ s.round_open then .error .RoundNotOpen
  else if s.judging_done then .error .AlreadyJudged
  else if ¬ (side = "a" ∨ side = "b") then .error .InvalidSide
  else if argument.length < 20 then .error .TextTooShort
  else if 600 < argument.length then .error .TextTooLong
  else
    let newList :=
      if (s.submissions caller).isNone then s.player_list ++ [caller]
      else s.player_list
    .ok ({ s with
        player_list := newList
        submissions :=
          setMap s.submissions caller ("SIDE_" ++ sideUpper side ++ "::" ++ argument) },
      "Argument submitted! Wait for the host to call judge_all().")

/-- `open_round` (lines 57-128).  `weekStr` is the ISO week id the source
derives from `gl.message.datetime` via `datetime.date.isocalendar` (an
external library call); `topic` is the outcome of the exact-match consensus
fetch (`gl.eq_principle_strict_eq(fetch_topic)` plus `json.loads`), `none`
standing for any failure of that acquisition.  The source's early write
`self.current_week = week_str` before the fetch needs no separate modelling:
a failed transaction commits nothing (see `applyTx`). -/
def open_round (caller : Address) (weekStr : String)
    (topic : Option (String × String × String)) (s : State) :
    Except Err (State × String) :=
  if caller ≠ s.host then .error .Unauthorized
  else if s.round_open then .error .RoundAlreadyOpen
  else if weekStr = s.current_week then .error .PeriodAlreadyPlayed
  else
    match topic with
    | none => .error .OracleUnavailable
    | some (t, a, b) =>
      .ok ({ s with
          current_week := weekStr
          current_topic := t
          current_side_a := a
          current_side_b := b
          submissions := fun p =>
            if p ∈ s.player_list then none else s.submissions p
          scores := fun p =>
            if p ∈ s.player_list then none else s.scores p
          player_list := []
          round_open := true
          judging_done := false },
        "Round " ++ weekStr ++ " opened! Topic: " ++ t)

/-- GenLayer commit semantics: a write transaction either commits its
resulting state or, on any raised error, leaves state untouched. -/
def applyTx (f : State → Except Err (State × String)) (s : State) : State :=
  match f s with
  | .ok (s1, _) => s1
  | .error _ => s

/-- One public write call with its per-call context (caller, derived week,
oracle outcomes). -/
inductive Op
  | openR (caller : Address) (weekStr : String)
      (topic : Option (String × String × String))
  | submitA (caller : Address) (side : String) (argument : String)
  | judgeA (caller : Address) (oracle : Address → OracleOutcome)

def applyOp (op : Op) (s : State) : State :=
  match op with
  | .openR caller w t => applyTx (open_round caller w t) s
  | .submitA caller side arg => applyTx (submit_argument caller side arg) s
  | .judgeA caller oracle => applyTx (judge_all caller oracle) s

def applyOps (ops : List Op) (s : State) : State :=
  ops.foldl (fun st op => applyOp op st) s

/-- Stable insertion of `e` into `l`, keeping `e` after every element with a
strictly larger key and before the first element with a key `≤ key e`. -/
def insertD {α : Type} (key : α → Nat) (e : α) : List α → List α
  | [] => [e]
  | x :: xs => if key e < key x then x :: insertD key e xs else e :: x :: xs

/-- Stable sort, descending by `key`: the model of Python's stable
`list.sort(key=..., reverse=True)` (any stable sort is extensionally the
same function, so insertion sort is a faithful model of Timsort here). -/
def sortD {α : Type} (key : α → Nat) : List α → List α
  | [] => []
  | x :: xs => insertD key x (sortD key xs)

/-- `get_leaderboard` (lines 253-272), as its structured content: a list of
`(address, xp, rank)` in output order (the source serialises this to JSON
together with the week and topic, which add no ranking information). -/
def get_leaderboard (s : State) : List (Address × Nat × Nat) :=
  let entries := s.player_list.map (fun p => (p, (s.scores p).getD 0))
  let sorted := sortD (fun e => e.2) entries
  sorted.enum.map (fun ie => (ie.2.1, ie.2.2, ie.1 + 1))

/-- `get_all_time_leaderboard` (lines 275-287), as its structured content:
a list of `(address, lifetime_xp, rank)`.  Note the source iterates
`self.player_list`, the current round's roster. -/
def get_all_time_leaderboard (s : State) : List (Address × Nat × Nat) :=
  let entries := s.player_list.map (fun p => (p, (s.all_time_xp p).getD 0))
  let sorted := sortD (fun e => e.2) entries
  sorted.enum.map (fun ie => (ie.2.1, ie.2.2, ie.1 + 1))

/-- `get_my_score` (lines 304-314), as its structured content
`(this_week_xp, lifetime_xp)`.  A `@gl.public.view` method: it is a pure
function of the state, so it can neither fail nor mutate anything. -/
def get_my_score (s : State) (addr : Address) : Nat × Nat :=
  ((s.scores addr).getD 0, (s.all_time_xp addr).getD 0)

/-! ### A concrete execution scenario (used by witnesses and counterexamples) -/

/-- A fixed successful topic fetch. -/
def topicT : Option (String × String × String) := some ("T", "SA", "SB")

/-- A 20-character argument (the minimum accepted length). -/
def argA : String := "aaaaaaaaaaaaaaaaaaaa"

/-- A 21-character argument. -/
def argB : String := "bbbbbbbbbbbbbbbbbbbbb"

/-- An oracle accepting every proposal: total 70 for player 1, 85 otherwise. -/
def orcC : Address → OracleOutcome :=
  fun p => if p = 1 then .accepted (.numeric 70) else .accepted (.numeric 85)

/-- Deployed by host 99, round "2025-W10" opened. -/
def stOpen : State := applyTx (open_round 99 "2025-W10" topicT) (initState 99)

/-- Player 1 submitted side a. -/
def stOne : State := applyTx (submit_argument 1 "a" argA) stOpen

/-- Players 1 and 2 submitted. -/
def stTwo : State := applyTx (submit_argument 2 "b" argB) stOne

/-- Round judged: player 1 scored 70, player 2 scored 85. -/
def stJudged : State := applyTx (judge_all 99 orcC) stTwo

/-- A second round "2025-W11" opened after the first was judged. -/
def stRound2 : State := applyTx (open_round 99 "2025-W11" topicT) stJudged

/-! ### Generic facts about the stable descending sort -/

section SortLemmas

variable {α : Type} (key : α → Nat)

theorem insertD_perm (e : α) (l : List α) : (insertD key e l).Perm (e :: l) := by
  induction l with
  | nil => exact List.Perm.refl _
  | cons x xs ih =>
    by_cases h : key e < key x
    · simp only [insertD, if_pos h]
      exact ((ih.cons x).trans (List.Perm.swap e x xs))
    · simp only [insertD, if_neg h]
      exact List.Perm.refl _

theorem sortD_perm (l : List α) : (sortD key l).Perm l := by
  induction l with
  | nil => exact List.Perm.refl _
  | cons x xs ih => exact (insertD_perm key x (sortD key xs)).trans (ih.cons x)

theorem mem_insertD {e y : α} {l : List α} (h : y ∈ insertD key e l) :
    y = e ∨ y ∈ l := by
  have := (insertD_perm key e l).mem_iff.mp h
  simpa using this

theorem insertD_sorted {e : α} {l : List α}
    (h : l.Pairwise (fun a b => key b ≤ key a)) :
    (insertD key e l).Pairwise (fun a b => key b ≤ key a) := by
  induction l with
  | nil => simp [insertD]
  | cons x xs ih =>
    rcases List.pairwise_cons.mp h with ⟨hx, hxs⟩
    by_cases hlt : key e < key x
    · simp only [insertD, if_pos hlt]
      refine List.pairwise_cons.mpr ⟨?_, ih hxs⟩
      intro y hy
      rcases mem_insertD key hy with rfl | hy
      · exact Nat.le_of_lt hlt
      · exact hx y hy
    · simp only [insertD, if_neg hlt]
      refine List.pairwise_cons.mpr ⟨?_, h⟩
      intro y hy
      rcases List.mem_cons.mp hy with rfl | hy
      · exact Nat.le_of_not_lt hlt
      · exact le_trans (hx y hy) (Nat.le_of_not_lt hlt)

theorem sortD_sorted (l : List α) :
    (sortD key l).Pairwise (fun a b => key b ≤ key a) := by
  induction l with
  | nil => simp [sortD]
  | cons x xs ih => exact insertD_sorted key ih

/-- Stability of insertion: the elements with any fixed key value `v` keep
their relative order. -/
theorem insertD_filter (e : α) (l : List α) (v : Nat) :
    (insertD key e l).filter (fun x => key x == v) =
      if key e = v then e :: l.filter (fun x => key x == v)
      else l.filter (fun x => key x == v) := by
  induction l with
  | nil =>
    by_cases h : key e = v <;> simp [insertD, List.filter_cons, h]
  | cons x xs ih =>
    by_cases hlt : key e < key x
    · simp only [insertD, if_pos hlt]
      by_cases hx : key x = v
      · have he : ¬ key e = v := by omega
        simp [List.filter_cons, hx, he, ih]
      · simp only [List.filter_cons]
        by_cases he : key e = v <;> simp [hx, he, ih]
    · simp only [insertD, if_neg hlt]
      by_cases he : key e = v <;> simp [List.filter_cons, he]

theorem sortD_filter (l : List α) (v : Nat) :
    (sortD key l).filter (fun x => key x == v) =
      l.filter (fun x => key x == v) := by
  induction l with
  | nil => rfl
  | cons x xs ih =>
    rw [sortD, insertD_filter key x (sortD key xs) v]
    by_cases h : key x = v <;> simp [List.filter_cons, h, ih]

end SortLemmas

/-! ### Facts about the judging loop -/

/-- `judgeStep` only ever writes `scores` and `all_time_xp`. -/
theorem judgeStep_frame {oracle : Address → OracleOutcome} {st st1 : State}
    {q : Address} (h : judgeStep oracle st q = .ok st1) :
    st1.submissions = st.submissions ∧ st1.player_list = st.player_list ∧
      st1.round_open = st.round_open ∧ st1.judging_done = st.judging_done ∧
      st1.host = st.host ∧ st1.current_week = st.current_week := by
  unfold judgeStep at h
  split at h
  · cases h; exact ⟨rfl, rfl, rfl, rfl, rfl, rfl⟩
  · split at h
    · cases h; exact ⟨rfl, rfl, rfl, rfl, rfl, rfl⟩
    · split at h
      · cases h
      · cases h; exact ⟨rfl, rfl, rfl, rfl, rfl, rfl⟩

/-- `judgeStep` on `q` leaves every other player's score entries alone. -/
theorem judgeStep_other {oracle : Address → OracleOutcome} {st st1 : State}
    {q p : Address} (h : judgeStep oracle st q = .ok st1) (hne : p ≠ q) :
    st1.scores p = st.scores p ∧ st1.all_time_xp p = st.all_time_xp p := by
  unfold judgeStep at h
  split at h
  · cases h; exact ⟨rfl, rfl⟩
  · split at h
    · cases h; exact ⟨rfl, rfl⟩
    · split at h
      · cases h
      · cases h
        exact ⟨by simp [setMap, hne], by simp [setMap, hne]⟩

/-- `judgeStep` never decreases a lifetime score. -/
theorem judgeStep_mono {oracle : Address → OracleOutcome} {st st1 : State}
    {q : Address} (h : judgeStep oracle st q = .ok st1) (p : Address) :
    (st.all_time_xp p).getD 0 ≤ (st1.all_time_xp p).getD 0 := by
  unfold judgeStep at h
  split at h
  · cases h; exact le_refl _
  · split at h
    · cases h; exact le_refl _
    · split at h
      · cases h
      · cases h
        by_cases hp : p = q
        · subst hp; simp [setMap]
        · simp [setMap, hp]

/-- A step on a player with a nonempty stored submission succeeds exactly
when the oracle-derived score does, and then writes that score. -/
theorem judgeStep_of_submission {oracle : Address → OracleOutcome} {st : State}
    {q : Address} {raw : String} (hsub : st.submissions q = some raw)
    (hraw : raw ≠ "") :
    judgeStep oracle st q =
      match scoreOf (oracle q) with
      | .error e => .error e
      | .ok xp =>
        .ok { st with
          scores := setMap st.scores q xp
          all_time_xp := setMap st.all_time_xp q ((st.all_time_xp q).getD 0 + xp) } := by
  unfold judgeStep
  rw [hsub]
  exact if_neg hraw

/-- The judging loop only ever writes `scores` and `all_time_xp`. -/
theorem judgeLoop_frame {oracle : Address → OracleOutcome} :
    ∀ {l : List Address} {st st1 : State},
      judgeLoop oracle l st = .ok st1 →
      st1.submissions = st.submissions ∧ st1.player_list = st.player_list ∧
        st1.round_open = st.round_open ∧ st1.judging_done = st.judging_done ∧
        st1.host = st.host ∧ st1.current_week = st.current_week := by
  intro l
  induction l with
  | nil => intro st st1 h; cases h; exact ⟨rfl, rfl, rfl, rfl, rfl, rfl⟩
  | cons q rest ih =>
    intro st st1 h
    unfold judgeLoop at h
    split at h
    · cases h
    · rename_i stq hq
      obtain ⟨h1, h2, h3, h4, h5, h6⟩ := judgeStep_frame hq
      obtain ⟨g1, g2, g3, g4, g5, g6⟩ := ih h
      exact ⟨g1.trans h1, g2.trans h2, g3.trans h3, g4.trans h4, g5.trans h5,
        g6.trans h6⟩

/-- If some listed player has a nonempty stored submission whose oracle call
fails, the loop as a whole fails. -/
theorem judgeLoop_fail {oracle : Address → OracleOutcome} {p : Address}
    {raw : String} :
    ∀ {l : List Address} {st : State}, p ∈ l → st.submissions p = some raw →
      raw ≠ "" → (∀ xp, scoreOf (oracle p) ≠ .ok xp) →
      ∃ e, judgeLoop oracle l st = .error e := by
  intro l
  induction l with
  | nil => intro st hp; cases hp
  | cons q rest ih =>
    intro st hp hsub hraw hfail
    by_cases hqp : q = p
    · subst hqp
      rcases hsc : scoreOf (oracle q) with e | xp
      · refine ⟨e, ?_⟩
        unfold judgeLoop
        rw [judgeStep_of_submission hsub hraw, hsc]
      · exact absurd hsc (hfail xp)
    · have hp' : p ∈ rest := by
        rcases List.mem_cons.mp hp with h | h
        · exact absurd h.symm hqp
        · exact h
      unfold judgeLoop
      rcases hq : judgeStep oracle st q with e | stq
      · exact ⟨e, rfl⟩
      · have hsub' : stq.submissions p = some raw := by
          rw [(judgeStep_frame hq).1, hsub]
        exact ih hp' hsub' hraw hfail

/-- The loop never decreases a lifetime score. -/
theorem judgeLoop_mono {oracle : Address → OracleOutcome} :
    ∀ {l : List Address} {st st1 : State}, judgeLoop oracle l st = .ok st1 →
      ∀ p, (st.all_time_xp p).getD 0 ≤ (st1.all_time_xp p).getD 0 := by
  intro l
  induction l with
  | nil => intro st st1 h p; cases h; exact le_refl _
  | cons q rest ih =>
    intro st st1 h p
    unfold judgeLoop at h
    split at h
    · cases h
    · rename_i stq hq
      exact le_trans (judgeStep_mono hq p) (ih h p)

/-- The loop leaves the score entries of a player not in the list alone. -/
theorem judgeLoop_not_mem {oracle : Address → OracleOutcome} {p : Address} :
    ∀ {l : List Address} {st st1 : State}, p ∉ l →
      judgeLoop oracle l st = .ok st1 →
      st1.scores p = st.scores p ∧ st1.all_time_xp p = st.all_time_xp p := by
  intro l
  induction l with
  | nil => intro st st1 _ h; cases h; exact ⟨rfl, rfl⟩
  | cons q rest ih =>
    intro st st1 hnm h
    unfold judgeLoop at h
    split at h
    · cases h
    · rename_i stq hq
      have hpq : p ≠ q := fun he => hnm (he ▸ List.mem_cons_self q rest)
      have hrest : p ∉ rest := fun hr => hnm (List.mem_cons_of_mem q hr)
      obtain ⟨h1, h2⟩ := judgeStep_other hq hpq
      obtain ⟨g1, g2⟩ := ih hrest h
      exact ⟨g1.trans h1, g2.trans h2⟩

/-- On a duplicate-free list, a successfully judged player with a nonempty
submission ends with period score `xp` and lifetime score increased by `xp`,
where `xp` is the oracle-derived clamped total. -/
theorem judgeLoop_scores {oracle : Address → OracleOutcome} {p : Address}
    {raw : String} :
    ∀ {l : List Address} {st st1 : State}, l.Nodup → p ∈ l →
      judgeLoop oracle l st = .ok st1 → st.submissions p = some raw →
      raw ≠ "" →
      ∃ xp, scoreOf (oracle p) = .ok xp ∧ st1.scores p = some xp ∧
        st1.all_time_xp p = some ((st.all_time_xp p).getD 0 + xp) := by
  intro l
  induction l with
  | nil => intro st st1 _ hp; cases hp
  | cons q rest ih =>
    intro st st1 hnd hp h hsub hraw
    unfold judgeLoop at h
    split at h
    · cases h
    · rename_i stq hq
      by_cases hqp : q = p
      · subst hqp
        have hnm : q ∉ rest := (List.nodup_cons.mp hnd).1
        rw [judgeStep_of_submission hsub hraw] at hq
        rcases hsc : scoreOf (oracle q) with e | xp <;> rw [hsc] at hq
        · cases hq
        · cases hq
          obtain ⟨g1, g2⟩ := judgeLoop_not_mem hnm h
          refine ⟨xp, rfl, ?_, ?_⟩
          · rw [g1]; simp [setMap]
          · rw [g2]; simp [setMap]
      · have hp' : p ∈ rest := by
          rcases List.mem_cons.mp hp with h | h
          · exact absurd h.symm hqp
          · exact h
        have hpq : p ≠ q := fun he => hqp he.symm
        obtain ⟨h1, h2⟩ := judgeStep_other hq hpq
        have hsub' : stq.submissions p = some raw := by
          rw [(judgeStep_frame hq).1, hsub]
        obtain ⟨xp, g0, g1, g2⟩ := ih (List.nodup_cons.mp hnd).2 hp' h hsub' hraw
        exact ⟨xp, g0, g1, by rw [g2, h2]⟩

/-! ### Inversion lemmas for the public write methods -/

theorem judge_all_ok_inv {caller : Address} {oracle : Address → OracleOutcome}
    {s s' : State} {msg : String}
    (h : judge_all caller oracle s = .ok (s', msg)) :
    caller = s.host ∧ s.round_open = true ∧ s.judging_done = false ∧
      s.player_list ≠ [] ∧
      ∃ s1, judgeLoop oracle s.player_list s = .ok s1 ∧
        s' = { s1 with round_open := false, judging_done := true } := by
  unfold judge_all at h
  split_ifs at h with h1 h2 h3 h4
  split at h
  · cases h
  · rename_i s1 hl
    cases h
    refine ⟨by simpa using h1, by simpa using h2, by simpa using h3, ?_, s1, hl, rfl⟩
    intro he
    exact h4 (by simp [he])

theorem submit_ok_inv {caller : Address} {side arg : String} {s s' : State}
    {msg : String} (h : submit_argument caller side arg s = .ok (s', msg)) :
    s.round_open = true ∧ s.judging_done = false ∧
      (side = "a" ∨ side = "b") ∧ 20 ≤ arg.length ∧ arg.length ≤ 600 ∧
      s' = { s with
        player_list :=
          if (s.submissions caller).isNone then s.player_list ++ [caller]
          else s.player_list
        submissions :=
          setMap s.submissions caller ("SIDE_" ++ sideUpper side ++ "::" ++ arg) } := by
  unfold submit_argument at h
  split_ifs at h with h1 h2 h3 h4 h5 h6 <;> cases h
  · exact ⟨by simpa using h1, by simpa using h2, by simpa using h3, by omega,
      by omega, by simp [h6]⟩
  · exact ⟨by simpa using h1, by simpa using h2, by simpa using h3, by omega,
      by omega, by simp [h6]⟩

theorem open_round_ok_inv {caller : Address} {weekStr : String}
    {topic : Option (String × String × String)} {s s' : State} {msg : String}
    (h : open_round caller weekStr topic s = .ok (s', msg)) :
    caller = s.host ∧ s.round_open = false ∧ weekStr ≠ s.current_week ∧
      ∃ t a b, topic = some (t, a, b) ∧
        s' = { s with
          current_week := weekStr
          current_topic := t
          current_side_a := a
          current_side_b := b
          submissions := fun p =>
            if p ∈ s.player_list then none else s.submissions p
          scores := fun p =>
            if p ∈ s.player_list then none else s.scores p
          player_list := []
          round_open := true
          judging_done := false } := by
  unfold open_round at h
  split_ifs at h with h1 h2 h3
  rcases topic with _ | ⟨t, a, b⟩
  · cases h
  · cases h
    exact ⟨by simpa using h1, by simpa using h2, h3, t, a, b, rfl, rfl⟩

/-! ### The roster invariant -/

/-- The roster (`player_list`) is duplicate-free and holds exactly the
participants with a stored submission in the current round. -/
def RosterInv (s : State) : Prop :=
  s.player_list.Nodup ∧ ∀ p, p ∈ s.player_list ↔ (s.submissions p).isSome

theorem rosterInv_init (d : Address) : RosterInv (initState d) := by
  refine ⟨List.nodup_nil, ?_⟩
  intro p
  simp [initState]

theorem rosterInv_applyOp {s : State} (op : Op) (hs : RosterInv s) :
    RosterInv (applyOp op s) := by
  obtain ⟨hnd, hmem⟩ := hs
  rcases op with ⟨caller, w, t⟩ | ⟨caller, side, arg⟩ | ⟨caller, oracle⟩
  · show RosterInv (applyTx (open_round caller w t) s)
    unfold applyTx
    rcases h : open_round caller w t s with e | ⟨s', msg⟩
    · exact ⟨hnd, hmem⟩
    · obtain ⟨-, -, -, t', a, b, -, rfl⟩ := open_round_ok_inv h
      refine ⟨List.nodup_nil, ?_⟩
      intro p
      simp only [List.not_mem_nil, false_iff]
      by_cases hp : p ∈ s.player_list
      · simp [hp]
      · have hnone : s.submissions p = none := by
          cases hv : s.submissions p with
          | none => rfl
          | some x => exact absurd ((hmem p).mpr (by simp [hv])) hp
        simp [hp, hnone]
  · show RosterInv (applyTx (submit_argument caller side arg) s)
    unfold applyTx
    rcases h : submit_argument caller side arg s with e | ⟨s', msg⟩
    · exact ⟨hnd, hmem⟩
    · obtain ⟨-, -, -, -, -, rfl⟩ := submit_ok_inv h
      by_cases hc : (s.submissions caller).isNone
      · have hcnot : caller ∉ s.player_list := by
          intro habs
          have := (hmem caller).mp habs
          simp [Option.isNone_iff_eq_none.mp hc] at this
        constructor
        · show (if (s.submissions caller).isNone then s.player_list ++ [caller]
            else s.player_list).Nodup
          rw [if_pos hc]
          exact List.nodup_append.mpr ⟨hnd, List.nodup_singleton caller,
            fun a ha hb => (List.mem_singleton.mp hb ▸ hcnot) (List.mem_singleton.mp hb ▸ ha)⟩
        · intro p
          show p ∈ (if (s.submissions caller).isNone then s.player_list ++ [caller]
            else s.player_list) ↔ _
          rw [if_pos hc]
          by_cases hp : p = caller
          · subst hp
            simp [setMap]
          · simp only [List.mem_append, List.mem_singleton, hp, or_false,
              setMap, if_neg hp]
            exact hmem p
      · constructor
        · show (if (s.submissions caller).isNone then s.player_list ++ [caller]
            else s.player_list).Nodup
          rw [if_neg hc]
          exact hnd
        · intro p
          show p ∈ (if (s.submissions caller).isNone then s.player_list ++ [caller]
            else s.player_list) ↔ _
          rw [if_neg hc]
          by_cases hp : p = caller
          · subst hp
            have hin : p ∈ s.player_list :=
              (hmem p).mpr (by simpa [Option.isSome_iff_ne_none] using hc)
            simp [setMap, hin]
          · simp only [setMap, if_neg hp]
            exact hmem p
  · show RosterInv (applyTx (judge_all caller oracle) s)
    unfold applyTx
    rcases h : judge_all caller oracle s with e | ⟨s', msg⟩
    · exact ⟨hnd, hmem⟩
    · obtain ⟨-, -, -, -, s1, hl, rfl⟩ := judge_all_ok_inv h
      obtain ⟨h1, h2, -⟩ := judgeLoop_frame hl
      constructor
      · show s1.player_list.Nodup
        rw [h2]
        exact hnd
      · intro p
        show p ∈ s1.player_list ↔ (s1.submissions p).isSome
        rw [h2, h1]
        exact hmem p

theorem rosterInv_applyOps (d : Address) (ops : List Op) :
    RosterInv (applyOps ops (initState d)) := by
  suffices h : ∀ (l : List Op) (s : State), RosterInv s → RosterInv (applyOps l s) from
    h ops _ (rosterInv_init d)
  intro l
  induction l with
  | nil => intro s hs; exact hs
  | cons op rest ih =>
    intro s hs
    exact ih _ (rosterInv_applyOp op hs)

/-! ### Shape of the ranked leaderboard views -/

/-- Stripping the rank from a ranked view gives back the sorted entries. -/
theorem ranked_strip (l : List (Address × Nat)) :
    ((sortD (fun e => e.2) l).enum.map
        (fun ie => (ie.2.1, ie.2.2, ie.1 + 1))).map (fun e => (e.1, e.2.1)) =
      sortD (fun e => e.2) l := by
  rw [List.map_map]
  exact List.enum_map_snd _

/-- The rank column of a ranked view is exactly `1, 2, …, length`. -/
theorem ranked_ranks (l : List (Address × Nat)) :
    ((sortD (fun e => e.2) l).enum.map
        (fun ie => (ie.2.1, ie.2.2, ie.1 + 1))).map (fun e => e.2.2) =
      List.range' 1 l.length := by
  rw [List.map_map]
  have h1 : ((sortD (fun e => e.2) l).enum.map
      (fun ie => ie.1)).map (fun n => n + 1) =
      (List.range (sortD (fun e => e.2) l).length).map (fun n => n + 1) := by
    rw [List.enum_map_fst]
  rw [List.map_map] at h1
  have h2 : (sortD (fun e => e.2) l).length = l.length :=
    (sortD_perm (fun e => e.2) l).length_eq
  rw [show ((fun n => n + 1) ∘ fun (ie : Nat × (Address × Nat)) => ie.1) =
      ((fun e => e.2.2) ∘ fun (ie : Nat × (Address × Nat)) =>
        ((ie.2.1, ie.2.2, ie.1 + 1) : Address × Nat × Nat)) from rfl] at h1
  rw [h1, h2, List.range'_eq_map_range]
  exact List.map_congr_left (fun a _ => Nat.add_comm a 1)

/-- The score column of a ranked view is descending. -/
theorem ranked_sorted (l : List (Address × Nat)) :
    ((sortD (fun e => e.2) l).enum.map
        (fun ie => (ie.2.1, ie.2.2, ie.1 + 1))).Pairwise
      (fun a b => b.2.1 ≤ a.2.1) := by
  rw [List.pairwise_map]
  have h0 : (sortD (fun e => e.2) l).Pairwise (fun a b => b.2 ≤ a.2) :=
    sortD_sorted (fun e => e.2) l
  have h1 : ((sortD (fun e => e.2) l).enum.map Prod.snd).Pairwise
      (fun a b => b.2 ≤ a.2) := by
    rw [List.enum_map_snd]
    exact h0
  rw [List.pairwise_map] at h1
  exact h1.imp (fun h => h)

/-! ### Claim theorems -/

/-- C1: if `judge_all` fails for any reason — in particular when the oracle
fails while scoring any single listed participant with a nonempty stored
submission — the whole call errors and the committed contract state is
exactly the pre-call state: no period score write, lifetime addition or
round-flag change is persisted. -/
theorem C1_judge_all_atomic {s : State} {caller : Address}
    {oracle : Address → OracleOutcome} {p : Address} {raw : String}
    (hp : p ∈ s.player_list) (hsub : s.submissions p = some raw)
    (hraw : raw ≠ "") (hfail : (scoreOf (oracle p)).isOk = false) :
    (∃ e, judge_all caller oracle s = .error e) ∧
      applyTx (judge_all caller oracle) s = s := by
  have hfail' : ∀ xp, scoreOf (oracle p) ≠ .ok xp := by
    intro xp h
    rw [h] at hfail
    simp [Except.isOk, Except.toBool] at hfail
  have herr : ∃ e, judge_all caller oracle s = .error e := by
    rcases hr : judge_all caller oracle s with e | ⟨s1, msg⟩
    · exact ⟨e, rfl⟩
    · obtain ⟨-, -, -, -, s2, hl, -⟩ := judge_all_ok_inv hr
      obtain ⟨e, hl2⟩ := judgeLoop_fail hp hsub hraw hfail'
      rw [hl2] at hl
      cases hl
  obtain ⟨e, he⟩ := herr
  refine ⟨⟨e, he⟩, ?_⟩
  unfold applyTx
  rw [he]

theorem C1_witness :
    (1 : Address) ∈ stTwo.player_list ∧
      stTwo.submissions 1 = some "SIDE_A::aaaaaaaaaaaaaaaaaaaa" ∧
      ("SIDE_A::aaaaaaaaaaaaaaaaaaaa" : String) ≠ "" ∧
      (scoreOf ((fun _ => OracleOutcome.unavailable) (1 : Address))).isOk = false ∧
      ((∃ e, judge_all 99 (fun _ => OracleOutcome.unavailable) stTwo = .error e) ∧
        applyTx (judge_all 99 (fun _ => OracleOutcome.unavailable)) stTwo = stTwo) :=
  ⟨by decide, by decide, by decide, rfl,
    @C1_judge_all_atomic stTwo 99 (fun _ => OracleOutcome.unavailable) 1
      "SIDE_A::aaaaaaaaaaaaaaaaaaaa" (by decide) (by decide) (by decide) rfl⟩

/-- C10: for an address with no period score entry and no lifetime entry,
`get_my_score` returns period score 0 and lifetime score 0.  It is a
`@gl.public.view` method, embedded as a total pure function of the state:
it cannot fail and mutates nothing. -/
theorem C10_get_my_score_default (s : State) (addr : Address)
    (h1 : s.scores addr = none) (h2 : s.all_time_xp addr = none) :
    get_my_score s addr = (0, 0) := by
  simp [get_my_score, h1, h2]

theorem C10_witness :
    stTwo.scores 5 = none ∧ stTwo.all_time_xp 5 = none ∧
      get_my_score stTwo 5 = (0, 0) :=
  ⟨by decide, by decide, C10_get_my_score_default stTwo 5 (by decide) (by decide)⟩

/-- C2 (counterexample): after the judged first round is superseded by
opening round "2025-W11", player 1 still holds lifetime score 70, yet the
all-time leaderboard is empty — it is driven by the (reset) roster, not by
LifetimeScore's key set, so the claim is false. -/
theorem C2_counterexample :
    stRound2.all_time_xp 1 = some 70 ∧ get_all_time_leaderboard stRound2 = [] := by
  exact ⟨by decide, by decide⟩

/-- C2 (amended): `get_all_time_leaderboard` ranks exactly the current
round's roster (`player_list`), pairing each roster participant with their
lifetime score (default 0): its entries are a permutation of the
roster-paired lifetime scores, sorted descending, with 1-based ranks.
Participants of earlier rounds who are not in the current roster do not
appear. -/
theorem C2_all_time_roster_driven (s : State) :
    ((get_all_time_leaderboard s).map (fun e => (e.1, e.2.1))).Perm
      (s.player_list.map (fun p => (p, (s.all_time_xp p).getD 0))) ∧
    (get_all_time_leaderboard s).Pairwise (fun a b => b.2.1 ≤ a.2.1) ∧
    (get_all_time_leaderboard s).map (fun e => e.2.2) =
      List.range' 1 s.player_list.length := by
  have hdef : get_all_time_leaderboard s =
      ((sortD (fun e => e.2)
        (s.player_list.map (fun p => (p, (s.all_time_xp p).getD 0)))).enum.map
        (fun ie => (ie.2.1, ie.2.2, ie.1 + 1))) := rfl
  refine ⟨?_, ?_, ?_⟩
  · rw [hdef, ranked_strip]
    exact sortD_perm _ _
  · rw [hdef]
    exact ranked_sorted _
  · rw [hdef, ranked_ranks, List.length_map]

/-- C3 (counterexample): an accepted, well-formed scoring JSON that merely
lacks the `total` field does not make `judge_all` fail — the code substitutes
the default 0 (`scored.get("total", 0)`) and records a period score of 0 for
the participant, so the claim is false. -/
theorem C3_counterexample :
    (∃ s1 msg, judge_all 99 (fun _ => OracleOutcome.accepted .absent) stTwo =
      .ok (s1, msg)) ∧
      (applyTx (judge_all 99 (fun _ => OracleOutcome.accepted .absent))
          stTwo).scores 1 = some 0 := by
  exact ⟨⟨_, _, rfl⟩, by decide⟩

/-- C3 (amended): an accepted oracle output on which `json.loads` raises
(malformed JSON) is surfaced as a failure of the whole `judge_all` call, but
an accepted, parseable object missing the `total` field is NOT surfaced: the
code substitutes the default 0 and records it as the participant's score. -/
theorem C3_malformed_fails_missing_defaults {s : State} {caller : Address}
    {oracle : Address → OracleOutcome} {p : Address} {raw : String}
    (hp : p ∈ s.player_list) (hsub : s.submissions p = some raw)
    (hraw : raw ≠ "") (hm : oracle p = OracleOutcome.malformed) :
    (∃ e, judge_all caller oracle s = .error e) ∧
      scoreOf (OracleOutcome.accepted .absent) = .ok 0 := by
  refine ⟨?_, rfl⟩
  rcases hr : judge_all caller oracle s with e | ⟨s1, msg⟩
  · exact ⟨e, rfl⟩
  · obtain ⟨-, -, -, -, s2, hl, -⟩ := judge_all_ok_inv hr
    have hfail' : ∀ xp, scoreOf (oracle p) ≠ .ok xp := by
      intro xp h
      rw [hm] at h
      simp [scoreOf] at h
    obtain ⟨e, hl2⟩ := judgeLoop_fail hp hsub hraw hfail'
    rw [hl2] at hl
    cases hl

theorem C3_witness :
    (1 : Address) ∈ stTwo.player_list ∧
      stTwo.submissions 1 = some "SIDE_A::aaaaaaaaaaaaaaaaaaaa" ∧
      ("SIDE_A::aaaaaaaaaaaaaaaaaaaa" : String) ≠ "" ∧
      (fun _ => OracleOutcome.malformed) (1 : Address) = OracleOutcome.malformed ∧
      ((∃ e, judge_all 99 (fun _ => OracleOutcome.malformed) stTwo = .error e) ∧
        scoreOf (OracleOutcome.accepted .absent) = .ok 0) :=
  ⟨by decide, by decide, by decide, rfl,
    @C3_malformed_fails_missing_defaults stTwo 99 (fun _ => OracleOutcome.malformed)
      1 "SIDE_A::aaaaaaaaaaaaaaaaaaaa" (by decide) (by decide) (by decide) rfl⟩

/-- C6: `get_leaderboard` pairs each roster participant with their period
score (0 if unscored), sorts descending by score — stably, so equal-score
entries keep roster (first-submission) order — and assigns 1-based ranks:
its entries are a permutation of the roster-paired scores, the score column
is descending, for every score value the equal-score entries appear in
exactly roster order, and the rank column is 1, 2, …, n. -/
theorem C6_period_leaderboard (s : State) :
    ((get_leaderboard s).map (fun e => (e.1, e.2.1))).Perm
      (s.player_list.map (fun p => (p, (s.scores p).getD 0))) ∧
    (get_leaderboard s).Pairwise (fun a b => b.2.1 ≤ a.2.1) ∧
    (∀ v, ((get_leaderboard s).map (fun e => (e.1, e.2.1))).filter
        (fun e => e.2 == v) =
      (s.player_list.map (fun p => (p, (s.scores p).getD 0))).filter
        (fun e => e.2 == v)) ∧
    (get_leaderboard s).map (fun e => e.2.2) =
      List.range' 1 s.player_list.length := by
  have hdef : get_leaderboard s =
      ((sortD (fun e => e.2)
        (s.player_list.map (fun p => (p, (s.scores p).getD 0)))).enum.map
        (fun ie => (ie.2.1, ie.2.2, ie.1 + 1))) := rfl
  refine ⟨?_, ?_, ?_, ?_⟩
  · rw [hdef, ranked_strip]
    exact sortD_perm _ _
  · rw [hdef]
    exact ranked_sorted _
  · intro v
    rw [hdef, ranked_strip]
    exact sortD_filter _ _ v
  · rw [hdef, ranked_ranks, List.length_map]

/-- C4: with the host calling on an open, unjudged round, an empty roster
makes `judge_all` fail with `NoSubmissions` and commit nothing; a successful
`judge_all` leaves the round closed (`round_open = false`) and judged
(`judging_done = true`), and any subsequent submit fails with
`RoundNotOpen`. -/
theorem C4_judge_all_gates :
    (∀ (s : State) (caller : Address) (oracle : Address → OracleOutcome),
        caller = s.host → s.round_open = true → s.judging_done = false →
        s.player_list = [] →
        judge_all caller oracle s = .error .NoSubmissions ∧
          applyTx (judge_all caller oracle) s = s) ∧
    (∀ (s : State) (caller : Address) (oracle : Address → OracleOutcome)
        (s1 : State) (msg : String),
        judge_all caller oracle s = .ok (s1, msg) →
        s1.round_open = false ∧ s1.judging_done = true ∧
          ∀ (c : Address) (side text : String),
            submit_argument c side text s1 = .error .RoundNotOpen) := by
  constructor
  · intro s caller oracle h1 h2 h3 h4
    have he : judge_all caller oracle s = .error .NoSubmissions := by
      unfold judge_all
      rw [if_neg (by simp [h1]), if_neg (by simp [h2]), if_neg (by simp [h3]),
        if_pos (by simp [h4])]
    refine ⟨he, ?_⟩
    unfold applyTx
    rw [he]
  · intro s caller oracle s1 msg h
    obtain ⟨-, -, -, -, s2, hl, rfl⟩ := judge_all_ok_inv h
    refine ⟨rfl, rfl, ?_⟩
    intro c side text
    unfold submit_argument
    rw [if_pos (by simp)]

theorem C4_witness :
    ((99 : Address) = stOpen.host ∧ stOpen.round_open = true ∧
      stOpen.judging_done = false ∧ stOpen.player_list = [] ∧
      (judge_all 99 orcC stOpen = .error .NoSubmissions ∧
        applyTx (judge_all 99 orcC) stOpen = stOpen)) ∧
    (judge_all 99 orcC stTwo =
      .ok (stJudged, "Judging complete! Call get_leaderboard() to see results.") ∧
      stJudged.round_open = false ∧ stJudged.judging_done = true ∧
      submit_argument 3 "a" argA stJudged = .error .RoundNotOpen) := by
  have h2 := C4_judge_all_gates.2 stTwo 99 orcC stJudged
    "Judging complete! Call get_leaderboard() to see results." rfl
  exact ⟨⟨by decide, by decide, by decide, by decide,
      C4_judge_all_gates.1 stOpen 99 orcC (by decide) (by decide) (by decide)
        (by decide)⟩,
    ⟨rfl, h2.1, h2.2.1, h2.2.2 3 "a" argA⟩⟩

/-- Every score the judging code accepts is already clamped into `[0,100]`. -/
theorem scoreOf_ok_le {o : OracleOutcome} {xp : Nat} (h : scoreOf o = .ok xp) :
    xp ≤ 100 := by
  cases o with
  | unavailable => cases h
  | rejected => cases h
  | malformed => cases h
  | accepted fv =>
    cases fv with
    | absent =>
      have h0 : 0 = xp := Except.ok.inj h
      omega
    | nonNumeric => cases h
    | numeric n =>
      have h0 : (min (max n 0) 100).toNat = xp := Except.ok.inj h
      omega

/-- C5: in a successful `judge_all` (on a duplicate-free roster), every
judged participant's period score is set to the clamped accepted `total`
(hence ≤ 100) and that same amount is added to — never overwrites — their
lifetime score; and the lifetime score of every participant is monotonically
non-decreasing under every contract operation and every sequence of them. -/
theorem C5_clamped_and_monotone :
    (∀ (s : State) (caller : Address) (oracle : Address → OracleOutcome)
        (s1 : State) (msg : String) (p : Address) (raw : String),
        judge_all caller oracle s = .ok (s1, msg) → s.player_list.Nodup →
        p ∈ s.player_list → s.submissions p = some raw → raw ≠ "" →
        ∃ xp, scoreOf (oracle p) = .ok xp ∧ xp ≤ 100 ∧
          s1.scores p = some xp ∧
          s1.all_time_xp p = some ((s.all_time_xp p).getD 0 + xp)) ∧
    (∀ (op : Op) (s : State) (p : Address),
        (s.all_time_xp p).getD 0 ≤ ((applyOp op s).all_time_xp p).getD 0) ∧
    (∀ (ops : List Op) (s : State) (p : Address),
        (s.all_time_xp p).getD 0 ≤ ((applyOps ops s).all_time_xp p).getD 0) := by
  have hop : ∀ (op : Op) (s : State) (p : Address),
      (s.all_time_xp p).getD 0 ≤ ((applyOp op s).all_time_xp p).getD 0 := by
    intro op s p
    rcases op with ⟨caller, w, t⟩ | ⟨caller, side, arg⟩ | ⟨caller, oracle⟩
    · show (s.all_time_xp p).getD 0 ≤
        ((applyTx (open_round caller w t) s).all_time_xp p).getD 0
      unfold applyTx
      rcases h : open_round caller w t s with e | ⟨s1, msg⟩
      · exact le_refl _
      · obtain ⟨-, -, -, t', a, b, -, rfl⟩ := open_round_ok_inv h
        exact le_refl _
    · show (s.all_time_xp p).getD 0 ≤
        ((applyTx (submit_argument caller side arg) s).all_time_xp p).getD 0
      unfold applyTx
      rcases h : submit_argument caller side arg s with e | ⟨s1, msg⟩
      · exact le_refl _
      · obtain ⟨-, -, -, -, -, rfl⟩ := submit_ok_inv h
        exact le_refl _
    · show (s.all_time_xp p).getD 0 ≤
        ((applyTx (judge_all caller oracle) s).all_time_xp p).getD 0
      unfold applyTx
      rcases h : judge_all caller oracle s with e | ⟨s1, msg⟩
      · exact le_refl _
      · obtain ⟨-, -, -, -, s2, hl, rfl⟩ := judge_all_ok_inv h
        exact judgeLoop_mono hl p
  refine ⟨?_, hop, ?_⟩
  · intro s caller oracle s1 msg p raw h hnd hp hsub hraw
    obtain ⟨-, -, -, -, s2, hl, rfl⟩ := judge_all_ok_inv h
    obtain ⟨xp, hxp, hsc, hat⟩ := judgeLoop_scores hnd hp hl hsub hraw
    exact ⟨xp, hxp, scoreOf_ok_le hxp, hsc, hat⟩
  · intro ops
    induction ops with
    | nil => intro s p; exact le_refl _
    | cons op rest ih =>
      intro s p
      exact le_trans (hop op s p) (ih (applyOp op s) p)

theorem C5_witness :
    (judge_all 99 orcC stTwo =
        .ok (stJudged, "Judging complete! Call get_leaderboard() to see results.") ∧
      stTwo.player_list.Nodup ∧ (1 : Address) ∈ stTwo.player_list ∧
      stTwo.submissions 1 = some "SIDE_A::aaaaaaaaaaaaaaaaaaaa" ∧
      ("SIDE_A::aaaaaaaaaaaaaaaaaaaa" : String) ≠ "" ∧
      (∃ xp, scoreOf (orcC 1) = .ok xp ∧ xp ≤ 100 ∧
        stJudged.scores 1 = some xp ∧
        stJudged.all_time_xp 1 = some ((stTwo.all_time_xp 1).getD 0 + xp))) ∧
    (stTwo.all_time_xp 1).getD 0 ≤
      ((applyOps [Op.judgeA 99 orcC] stTwo).all_time_xp 1).getD 0 :=
  ⟨⟨rfl, by decide, by decide, by decide, by decide,
      C5_clamped_and_monotone.1 stTwo 99 orcC stJudged
        "Judging complete! Call get_leaderboard() to see results." 1
        "SIDE_A::aaaaaaaaaaaaaaaaaaaa" rfl (by decide) (by decide) (by decide)
        (by decide)⟩,
    C5_clamped_and_monotone.2.2 [Op.judgeA 99 orcC] stTwo 1⟩

/-- C7: a repeated submit by the same participant in the same round
overwrites the stored submission (last write wins) and adds no second roster
entry; and after any sequence of operations from a fresh deployment the
roster is duplicate-free and holds exactly the participants with a stored
submission in the current round. -/
theorem C7_resubmit_no_duplicate :
    (∀ (s s1 s2 : State) (c : Address) (side1 t1 side2 t2 m1 m2 : String),
        submit_argument c side1 t1 s = .ok (s1, m1) →
        submit_argument c side2 t2 s1 = .ok (s2, m2) →
        s2.player_list = s1.player_list ∧
          s2.submissions c = some ("SIDE_" ++ sideUpper side2 ++ "::" ++ t2)) ∧
    (∀ (d : Address) (ops : List Op),
        (applyOps ops (initState d)).player_list.Nodup ∧
        ∀ p, p ∈ (applyOps ops (initState d)).player_list ↔
          ((applyOps ops (initState d)).submissions p).isSome) := by
  constructor
  · intro s s1 s2 c side1 t1 side2 t2 m1 m2 h1 h2
    obtain ⟨-, -, -, -, -, rfl⟩ := submit_ok_inv h1
    obtain ⟨-, -, -, -, -, rfl⟩ := submit_ok_inv h2
    constructor
    · show (if _ then _ ++ [c] else _) = _
      rw [if_neg (by simp [setMap])]
    · simp [setMap]
  · intro d ops
    exact rosterInv_applyOps d ops

theorem C7_witness :
    (submit_argument 1 "a" argA stOpen =
        .ok (stOne, "Argument submitted! Wait for the host to call judge_all().") ∧
      submit_argument 1 "b" argB stOne =
        .ok (applyTx (submit_argument 1 "b" argB) stOne,
          "Argument submitted! Wait for the host to call judge_all().") ∧
      (applyTx (submit_argument 1 "b" argB) stOne).player_list =
        stOne.player_list ∧
      (applyTx (submit_argument 1 "b" argB) stOne).submissions 1 =
        some ("SIDE_" ++ sideUpper "b" ++ "::" ++ argB)) ∧
    (applyOps [Op.submitA 1 "a" argA] (initState 99)).player_list.Nodup := by
  have h := C7_resubmit_no_duplicate.1 stOpen stOne
    (applyTx (submit_argument 1 "b" argB) stOne) 1 "a" argA "b" argB
    "Argument submitted! Wait for the host to call judge_all()."
    "Argument submitted! Wait for the host to call judge_all()." rfl rfl
  exact ⟨⟨rfl, rfl, h.1, h.2⟩,
    (C7_resubmit_no_duplicate.2 99 [Op.submitA 1 "a" argA]).1⟩

/-- C8: in an open, unjudged round, submit rejects with `InvalidSide` unless
the side is one of the two accepted tags, rejects with `TextTooShort`
exactly when the text length is below 20 and with `TextTooLong` exactly when
it exceeds 600, and otherwise accepts and records the submission. -/
theorem C8_submit_validation (s : State) (caller : Address) (side text : String)
    (hopen : s.round_open = true) (hnj : s.judging_done = false) :
    (¬ (side = "a" ∨ side = "b") →
      submit_argument caller side text s = .error .InvalidSide) ∧
    ((side = "a" ∨ side = "b") →
      ((submit_argument caller side text s = .error .TextTooShort ↔
          text.length < 20) ∧
        (submit_argument caller side text s = .error .TextTooLong ↔
          600 < text.length) ∧
        (20 ≤ text.length → text.length ≤ 600 →
          submit_argument caller side text s =
            .ok ({ s with
              player_list :=
                if (s.submissions caller).isNone then s.player_list ++ [caller]
                else s.player_list
              submissions := setMap s.submissions caller
                ("SIDE_" ++ sideUpper side ++ "::" ++ text) },
              "Argument submitted! Wait for the host to call judge_all().")))) := by
  unfold submit_argument
  rw [if_neg (by simp [hopen]), if_neg (by simp [hnj])]
  constructor
  · intro hs
    rw [if_pos hs]
  · intro hs
    rw [if_neg (not_not_intro hs)]
    by_cases h20 : text.length < 20
    · rw [if_pos h20]
      refine ⟨by simp [h20], ?_, ?_⟩
      · simp [show ¬ (600 < text.length) from by omega]
      · intro hge _
        omega
    · rw [if_neg h20]
      by_cases h600 : 600 < text.length
      · rw [if_pos h600]
        refine ⟨by simp [h20], by simp [h600], ?_⟩
        intro _ hle
        omega
      · rw [if_neg h600]
        refine ⟨by simp [h20], by simp [h600], ?_⟩
        intro _ _
        rfl

theorem C8_witness :
    stOpen.round_open = true ∧ stOpen.judging_done = false ∧
      (("a" : String) = "a" ∨ ("a" : String) = "b") ∧
      20 ≤ argA.length ∧ argA.length ≤ 600 ∧
      submit_argument 3 "a" argA stOpen =
        .ok ({ stOpen with
          player_list :=
            if (stOpen.submissions 3).isNone then stOpen.player_list ++ [3]
            else stOpen.player_list
          submissions := setMap stOpen.submissions 3
            ("SIDE_" ++ sideUpper "a" ++ "::" ++ argA) },
          "Argument submitted! Wait for the host to call judge_all().") :=
  ⟨by decide, by decide, Or.inl rfl, by decide, by decide,
    ((C8_submit_validation stOpen 3 "a" argA (by decide) (by decide)).2
      (Or.inl rfl)).2.2 (by decide) (by decide)⟩

/-- C9 (counterexample): a first `open_round` for week "2025-W10" succeeds;
a second call with the same derived period while the round is still open
fails with `RoundAlreadyOpen`, not `PeriodAlreadyPlayed`, so the claim about
the failure's identity is false. -/
theorem C9_counterexample :
    (∃ s1 m, open_round 99 "2025-W10" topicT (initState 99) = .ok (s1, m)) ∧
      open_round 99 "2025-W10" topicT stOpen = .error .RoundAlreadyOpen ∧
      Err.RoundAlreadyOpen ≠ Err.PeriodAlreadyPlayed :=
  ⟨⟨stOpen, "Round " ++ "2025-W10" ++ " opened! Topic: " ++ "T", rfl⟩, rfl,
    by decide⟩

/-- C9 (amended): once a round's derived period id is recorded as
`current_week`, a further `open_round` with the same derived period can
never succeed: it fails with `RoundAlreadyOpen` while the round is still
open and with `PeriodAlreadyPlayed` once the round is closed (both for the
host; a non-host fails `Unauthorized` earlier).  A successful `open_round`
records its derived period id as `current_week`. -/
theorem C9_open_round_same_period {s : State} {caller : Address} {w : String}
    {topic : Option (String × String × String)} (hw : s.current_week = w) :
    (∀ r, open_round caller w topic s ≠ .ok r) ∧
    (caller = s.host → s.round_open = true →
      open_round caller w topic s = .error .RoundAlreadyOpen) ∧
    (caller = s.host → s.round_open = false →
      open_round caller w topic s = .error .PeriodAlreadyPlayed) ∧
    (∀ (s0 : State) (caller0 : Address)
        (topic0 : Option (String × String × String)) (s1 : State) (m : String),
        open_round caller0 w topic0 s0 = .ok (s1, m) → s1.current_week = w) := by
  refine ⟨?_, ?_, ?_, ?_⟩
  · rintro ⟨s1, m⟩ hr
    obtain ⟨-, -, hne, -⟩ := open_round_ok_inv hr
    exact hne hw.symm
  · intro hc ho
    unfold open_round
    rw [if_neg (by simp [hc]), if_pos ho]
  · intro hc ho
    unfold open_round
    rw [if_neg (by simp [hc]), if_neg (by simp [ho]), if_pos hw.symm]
  · intro s0 caller0 topic0 s1 m h
    obtain ⟨-, -, -, t, a, b, -, rfl⟩ := open_round_ok_inv h
    rfl

theorem C9_witness :
    stOpen.current_week = "2025-W10" ∧
      ((99 : Address) = stOpen.host ∧ stOpen.round_open = true ∧
        open_round 99 "2025-W10" topicT stOpen = .error .RoundAlreadyOpen) ∧
      stJudged.current_week = "2025-W10" ∧
      ((99 : Address) = stJudged.host ∧ stJudged.round_open = false ∧
        open_round 99 "2025-W10" topicT stJudged = .error .PeriodAlreadyPlayed) :=
  ⟨by decide,
    ⟨by decide, by decide,
      (@C9_open_round_same_period stOpen 99 "2025-W10" topicT (by decide)).2.1
        (by decide) (by decide)⟩,
    by decide,
    ⟨by decide, by decide,
      (@C9_open_round_same_period stJudged 99 "2025-W10" topicT (by decide)).2.2.1
        (by decide) (by decide)⟩⟩
